import Mathlib

/-!
Shallow embedding of the transcript parser in `vtt_parser.py`
(class `VTTParser`) together with proofs of the specified properties.

Python string primitives (`str.strip`, `str.split` with and without a
separator, `sep.join`, the `in` substring test) are modelled as executable
functions on `List Char` / `String`.  The parser state, the parse result
dictionary, the utterance dictionaries and the stats dictionary are
modelled as structures; a Python dictionary that may lack keys is a
structure of `Option` fields, and Python `None` is `Option.none` one
level up.  Fallible dictionary/list accesses are modelled a second time
in an `Except` monad to reason about unreachable error branches.
-/

/-- Python whitespace test used by `str.strip()` and `str.split()`. -/
def isPySpace (c : Char) : Bool :=
  c == ' ' || c == '\t' || c == '\n' || c == '\r' || c == '\x0b' || c == '\x0c'

/-- List-level both-ends whitespace strip. -/
def listStrip (l : List Char) : List Char :=
  ((l.dropWhile isPySpace).reverse.dropWhile isPySpace).reverse

/-- Python `s.strip()`. -/
def pyStrip (s : String) : String :=
  String.mk (listStrip s.toList)

/-- Fuel-based worker for `str.split(sep)` with a non-empty separator.
Each step consumes at least one character, so fuel `length + 1` suffices. -/
def splitSepAux (sep : List Char) : Nat → List Char → List Char → List (List Char)
  | 0, rest, acc => [acc ++ rest]
  | _ + 1, [], acc => [acc]
  | fuel + 1, c :: rest, acc =>
    if sep.isPrefixOf (c :: rest) then
      acc :: splitSepAux sep fuel (List.drop sep.length (c :: rest)) []
    else
      splitSepAux sep fuel rest (acc ++ [c])

/-- Python `s.split(sep)` for a non-empty separator string. -/
def pySplit (sep : String) (s : String) : List String :=
  (splitSepAux sep.toList (s.toList.length + 1) s.toList []).map String.mk

/-- Worker for `str.split()` without separator: split on whitespace runs. -/
def pyWordsAux : List Char → List Char → List (List Char)
  | [], acc => if acc.isEmpty then [] else [acc]
  | c :: rest, acc =>
    if isPySpace c then
      if acc.isEmpty then pyWordsAux rest [] else acc :: pyWordsAux rest []
    else pyWordsAux rest (acc ++ [c])

/-- Python `s.split()`: whitespace-delimited tokens, empties dropped. -/
def pyWords (s : String) : List String :=
  (pyWordsAux s.toList []).map String.mk

/-- Number of whitespace-delimited tokens of a string, `len(s.split())`. -/
def wordCount (s : String) : Nat :=
  (pyWords s).length

/-- Python `sep.join(l)`. -/
def pyJoin (sep : String) : List String → String
  | [] => ""
  | [x] => x
  | x :: y :: xs => x ++ sep ++ pyJoin sep (y :: xs)

/-- Worker for the Python substring test `sub in s`. -/
def containsSub (needle : List Char) : List Char → Bool
  | [] => needle.isEmpty
  | c :: rest => needle.isPrefixOf (c :: rest) || containsSub needle rest

/-- Python `sub in s` on strings. -/
def strContains (s sub : String) : Bool :=
  containsSub sub.toList s.toList

/-- One parsed conversation entry: the dictionary built at line 45 of
`vtt_parser.py`, which always carries these four keys. -/
structure Utterance where
  start_time : String
  end_time : String
  speaker : String
  text : String
deriving DecidableEq

/-- The dictionary returned by `parse_vtt_file` on success.  Fields are
`Option`s so that a dictionary lacking a key (as downstream guards
anticipate) is representable; `parse_vtt_file` itself fills all four. -/
structure ParsedData where
  conversations : Option (List Utterance)
  speakers : Option (List String)
  total_entries : Option Nat
  file_path : Option String
deriving DecidableEq

/-- Python truthiness of the parsed-data dictionary: a dict is falsy
exactly when it is empty, i.e. holds none of the four keys. -/
def ParsedData.isTruthy (d : ParsedData) : Bool :=
  d.conversations.isSome || d.speakers.isSome || d.total_entries.isSome ||
    d.file_path.isSome

/-- VTTParser._parse_timestamp: split on the marker with surrounding
spaces and strip the first two parts; any failure (fewer than two
parts: an IndexError caught by the bare except) yields two empty
strings. -/
def parseTimestamp (timestamp_line : String) : String × String :=
  match pySplit " --> " timestamp_line with
  | a :: b :: _ => (pyStrip a, pyStrip b)
  | _ => ("", "")

/-- VTTParser._extract_speaker_and_text: the regex
`([^:]+):\s*(.+)` anchored at the start.  The greedy `[^:]+` ends at the
first colon, so a match needs a non-empty prefix before the first colon
and a non-empty remainder after it; with backtracking through the
whitespace run, the stripped second group equals the stripped remainder.
On no match the text is returned unchanged with an empty speaker. -/
def extractSpeakerAndText (speaker_text : String) : String × String :=
  match speaker_text.toList.dropWhile (fun c => !(c == ':')) with
  | [] => ("", speaker_text)
  | _ :: tail =>
    if speaker_text.toList.takeWhile (fun c => !(c == ':')) = [] then
      ("", speaker_text)
    else if tail = [] then ("", speaker_text)
    else (pyStrip (String.mk (speaker_text.toList.takeWhile (fun c => !(c == ':')))),
      pyStrip (String.mk tail))

/-- Treatment of a single block inside the loop of
`parse_vtt_file` (lines 24-50): the utterance the block contributes, if
any.  The block's contribution depends on nothing but the block text. -/
def parseBlock (block : String) : Option Utterance :=
  if pyStrip block = "" ∨ pyStrip block = "WEBVTT" then none
  else
    let lines := pySplit "\n" (pyStrip block)
    if lines.length < 3 then none
    else
      let timestamp_line := lines.getD 1 ""
      if ¬ strContains timestamp_line "-->" then none
      else
        let se := parseTimestamp timestamp_line
        let speaker_text := pyJoin " " (lines.drop 2)
        let st := extractSpeakerAndText speaker_text
        if st.1 ≠ "" ∧ st.2 ≠ "" then
          some { start_time := se.1, end_time := se.2,
                 speaker := st.1, text := pyStrip st.2 }
        else none

/-- Python `set.add` on a set modelled as a duplicate-free list. -/
def insertSpeaker (speakers : List String) (s : String) : List String :=
  if s ∈ speakers then speakers else speakers ++ [s]

/-- The block loop of `parse_vtt_file`, threading the two local
accumulators `conversations` and `speakers`. -/
def parseLoop : List String → List Utterance → List String →
    List Utterance × List String
  | [], conversations, speakers => (conversations, speakers)
  | b :: bs, conversations, speakers =>
    match parseBlock b with
    | none => parseLoop bs conversations speakers
    | some u =>
      parseLoop bs (conversations ++ [u]) (insertSpeaker speakers u.speaker)

/-- Body of `parse_vtt_file` after a successful read of the file
content: split into blank-line-separated blocks, run the loop, return
the result dictionary. -/
def parse_vtt_content (file_path content : String) : ParsedData :=
  let blocks := pySplit "\n\n" content
  let r := parseLoop blocks [] []
  { conversations := some r.1
    speakers := some r.2
    total_entries := some r.1.length
    file_path := some file_path }

/-- VTTParser.parse_vtt_file including the read step.  The read result
is `none` when opening/decoding the file raises; the surrounding
`try/except` then returns Python `None`, modelled as `none`. -/
def parse_vtt_file (file_path : String) (readResult : Option String) :
    Option ParsedData :=
  match readResult with
  | none => none
  | some content => some (parse_vtt_content file_path content)

/-- Loop of `get_conversation_text` (lines 101-114): thread the emitted
blocks and the running speaker/text accumulators, then emit the final
accumulation (lines 117-118). -/
def narrativeLoop : List Utterance → List String → String → String → List String
  | [], text_blocks, current_speaker, current_text =>
    if current_speaker ≠ "" ∧ current_text ≠ "" then
      text_blocks ++ [current_speaker ++ ": " ++ current_text]
    else text_blocks
  | conv :: rest, text_blocks, current_speaker, current_text =>
    if conv.speaker = current_speaker then
      narrativeLoop rest text_blocks current_speaker
        (current_text ++ " " ++ conv.text)
    else
      narrativeLoop rest
        (if current_speaker ≠ "" ∧ current_text ≠ "" then
          text_blocks ++ [current_speaker ++ ": " ++ current_text]
         else text_blocks)
        conv.speaker conv.text

/-- VTTParser.get_conversation_text: empty string when the argument is
`None`, falsy, or lacks the conversations key; otherwise the emitted
blocks joined by blank lines. -/
def get_conversation_text (parsed_data : Option ParsedData) : String :=
  match parsed_data with
  | none => ""
  | some d =>
    if ¬ d.isTruthy ∨ d.conversations = none then ""
    else pyJoin "\n\n" (narrativeLoop (d.conversations.getD []) [] "" "")

/-- The stats dictionary built at lines 148-153 of `vtt_parser.py`;
`get_meeting_stats` returns either this or the empty dict, the empty
dict being modelled as `none` one level up. -/
structure MeetingStats where
  duration : String
  total_speakers : Nat
  total_entries : Nat
  speaker_word_counts : List (String × Nat)
deriving DecidableEq

/-- Association-list lookup modelling Python dict access on the
per-speaker word-count dictionary. -/
def alookup (key : String) : List (String × Nat) → Option Nat
  | [] => none
  | kv :: rest => if kv.1 = key then some kv.2 else alookup key rest

/-- Lines 142-146: add a word count onto a speaker's running total, or
insert the speaker with that count when absent. -/
def addWordCount (stats : List (String × Nat)) (speaker : String)
    (word_count : Nat) : List (String × Nat) :=
  if (alookup speaker stats).isSome then
    stats.map (fun kv => if kv.1 = speaker then (kv.1, kv.2 + word_count) else kv)
  else stats ++ [(speaker, word_count)]

/-- The word-count loop of `get_meeting_stats` (lines 139-146); entries
with an empty speaker are skipped. -/
def statsLoop : List Utterance → List (String × Nat) → List (String × Nat)
  | [], speaker_stats => speaker_stats
  | conv :: rest, speaker_stats =>
    if conv.speaker ≠ "" then
      statsLoop rest (addWordCount speaker_stats conv.speaker (wordCount conv.text))
    else statsLoop rest speaker_stats

/-- VTTParser.get_meeting_stats: the empty dict (modelled `none`) when
the argument is `None`, falsy, or has no conversations; otherwise the
four-key stats dictionary. -/
def get_meeting_stats (parsed_data : Option ParsedData) : Option MeetingStats :=
  match parsed_data with
  | none => none
  | some d =>
    if ¬ d.isTruthy then none
    else
      match d.conversations.getD [] with
      | [] => none
      | first :: rest =>
        some { duration := first.start_time ++ " to " ++
                 ((first :: rest).getLast (List.cons_ne_nil first rest)).end_time
               total_speakers := (d.speakers.getD []).length
               total_entries := (first :: rest).length
               speaker_word_counts := statsLoop (first :: rest) [] }

/-- Dictionary access on an utterance with an explicit key, for the
`Except`-monad model of the downstream functions: a key other than the
four present ones would raise a KeyError. -/
def Utterance.getKey (u : Utterance) (key : String) : Except String String :=
  if key = "start_time" then .ok u.start_time
  else if key = "end_time" then .ok u.end_time
  else if key = "speaker" then .ok u.speaker
  else if key = "text" then .ok u.text
  else .error ("KeyError: " ++ key)

/-- Python `conversations[0]` with its potential IndexError. -/
def listGet0E (l : List Utterance) : Except String Utterance :=
  match l with
  | [] => .error "IndexError: list index out of range"
  | x :: _ => .ok x

/-- Python `conversations[-1]` with its potential IndexError. -/
def listGetLastE (l : List Utterance) : Except String Utterance :=
  match l.getLast? with
  | none => .error "IndexError: list index out of range"
  | some x => .ok x

/-- The loop of `get_conversation_text` with every dictionary access
made explicit in the `Except` monad. -/
def narrativeLoopE : List Utterance → List String → String → String →
    Except String (List String)
  | [], text_blocks, current_speaker, current_text =>
    .ok (if current_speaker ≠ "" ∧ current_text ≠ "" then
      text_blocks ++ [current_speaker ++ ": " ++ current_text]
    else text_blocks)
  | conv :: rest, text_blocks, current_speaker, current_text => do
    let speaker ← conv.getKey "speaker"
    let text ← conv.getKey "text"
    if speaker = current_speaker then
      narrativeLoopE rest text_blocks current_speaker
        (current_text ++ " " ++ text)
    else
      narrativeLoopE rest
        (if current_speaker ≠ "" ∧ current_text ≠ "" then
          text_blocks ++ [current_speaker ++ ": " ++ current_text]
         else text_blocks)
        speaker text

/-- get_conversation_text with explicit fallible accesses. -/
def get_conversation_text_e (parsed_data : Option ParsedData) :
    Except String String :=
  match parsed_data with
  | none => .ok ""
  | some d =>
    if ¬ d.isTruthy ∨ d.conversations = none then .ok ""
    else do
      let bs ← narrativeLoopE (d.conversations.getD []) [] "" ""
      pure (pyJoin "\n\n" bs)

/-- The word-count loop with explicit fallible accesses. -/
def statsLoopE : List Utterance → List (String × Nat) →
    Except String (List (String × Nat))
  | [], speaker_stats => .ok speaker_stats
  | conv :: rest, speaker_stats => do
    let speaker ← conv.getKey "speaker"
    if speaker ≠ "" then
      let text ← conv.getKey "text"
      statsLoopE rest (addWordCount speaker_stats speaker (wordCount text))
    else statsLoopE rest speaker_stats

/-- get_meeting_stats with explicit fallible accesses: the `[0]` and
`[-1]` indexings and the dictionary key reads can in principle raise. -/
def get_meeting_stats_e (parsed_data : Option ParsedData) :
    Except String (Option MeetingStats) :=
  match parsed_data with
  | none => .ok none
  | some d =>
    if ¬ d.isTruthy then .ok none
    else
      match d.conversations.getD [] with
      | [] => .ok none
      | first :: rest => do
        let f ← listGet0E (first :: rest)
        let l ← listGetLastE (first :: rest)
        let start_time ← f.getKey "start_time"
        let end_time ← l.getKey "end_time"
        let speaker_stats ← statsLoopE (first :: rest) []
        pure (some { duration := start_time ++ " to " ++ end_time
                     total_speakers := (d.speakers.getD []).length
                     total_entries := (first :: rest).length
                     speaker_word_counts := speaker_stats })

/-- Modelled from the spec: the narrative reconstruction described in
words by the spec (merge each maximal run of consecutive same-speaker
utterances, texts joined by single spaces, one emitted line per run).
Worker carrying the current run's speaker and accumulated text. -/
def specMergeGo (speaker acc : String) : List Utterance → List String
  | [] => [speaker ++ ": " ++ acc]
  | v :: rest =>
    if v.speaker = speaker then specMergeGo speaker (acc ++ " " ++ v.text) rest
    else (speaker ++ ": " ++ acc) :: specMergeGo v.speaker v.text rest

/-- Modelled from the spec: the emitted lines, one per maximal run. -/
def specMergeRuns : List Utterance → List String
  | [] => []
  | u :: rest => specMergeGo u.speaker u.text rest

/-- Modelled from the spec: reconstructed narrative, runs joined by a
blank line, empty string on empty input. -/
def reconstruct_narrative_spec (l : List Utterance) : String :=
  pyJoin "\n\n" (specMergeRuns l)

/-- The instance fields set by VTTParser.__init__ (lines 6-8). -/
structure ParserState where
  speakers : List String
  conversations : List Utterance
deriving DecidableEq

/-- parse_vtt_file viewed as a method: the body of lines 10-61 never
reads or writes `self.speakers` or `self.conversations` (it uses local
variables), so the instance state passes through untouched and the
result depends only on the file content. -/
def parse_vtt_file_method (self : ParserState) (file_path : String)
    (readResult : Option String) : Option ParsedData × ParserState :=
  (parse_vtt_file file_path readResult, self)

/-- Timestamp line of a block as the parse loop selects it: second line
of the stripped block. -/
def tsLineOf (block : String) : String :=
  (pySplit "\n" (pyStrip block)).getD 1 ""

/-- Word-count total a given speaker accumulates over a conversation
list: the sum of `wordCount` over that speaker's utterances. -/
def wsum (spk : String) (convs : List Utterance) : Nat :=
  ((convs.filter (fun u => u.speaker = spk)).map (fun u => wordCount u.text)).sum

theorem dropWhile_idem (p : Char → Bool) (l : List Char) :
    (l.dropWhile p).dropWhile p = l.dropWhile p := by
  induction l with
  | nil => rfl
  | cons c cs ih =>
    by_cases h : p c
    · simp [List.dropWhile_cons, h, ih]
    · simp [List.dropWhile_cons, h]

theorem head?_dropWhile_false (p : Char → Bool) (l : List Char) :
    ∀ c, (l.dropWhile p).head? = some c → p c = false := by
  induction l with
  | nil => intro c h; simp at h
  | cons a as ih =>
    intro c h
    by_cases ha : p a
    · exact ih c (by simpa [List.dropWhile_cons, ha] using h)
    · rw [List.dropWhile_cons] at h
      simp [ha] at h
      subst h
      simpa using ha

theorem dropWhile_of_head?_false (p : Char → Bool) (l : List Char)
    (h : ∀ c, l.head? = some c → p c = false) : l.dropWhile p = l := by
  cases l with
  | nil => rfl
  | cons a as =>
    have := h a rfl
    simp [List.dropWhile_cons, this]

theorem getLast?_dropWhile (p : Char → Bool) (l : List Char)
    (h : l.dropWhile p ≠ []) : (l.dropWhile p).getLast? = l.getLast? := by
  induction l with
  | nil => simp at h
  | cons a as ih =>
    by_cases ha : p a
    · rw [List.dropWhile_cons] at h ⊢
      simp only [ha, if_pos] at h ⊢
      rw [ih h]
      cases as with
      | nil => simp [List.dropWhile] at h
      | cons b bs => simp [List.getLast?_cons_cons]
    · simp [List.dropWhile_cons, ha]

theorem listStrip_idem (l : List Char) : listStrip (listStrip l) = listStrip l := by
  unfold listStrip
  set A := l.dropWhile isPySpace with hA
  set B := A.reverse.dropWhile isPySpace with hB
  by_cases hBnil : B = []
  · simp [hBnil]
  · have h1 : B.reverse.dropWhile isPySpace = B.reverse := by
      apply dropWhile_of_head?_false
      intro c hc
      rw [List.head?_reverse] at hc
      rw [hB, getLast?_dropWhile _ _ (hB ▸ hBnil)] at hc
      rw [List.getLast?_reverse] at hc
      exact head?_dropWhile_false isPySpace l c (hA ▸ hc)
    rw [h1, List.reverse_reverse, hB, dropWhile_idem]

theorem pyStrip_idem (s : String) : pyStrip (pyStrip s) = pyStrip s := by
  unfold pyStrip
  have h : (String.mk (listStrip s.toList)).toList = listStrip s.toList := rfl
  rw [h, listStrip_idem]

/-- A regex match in the speaker/text extraction produces an already
stripped text component, so re-stripping it changes nothing. -/
theorem extract_shape (s : String) :
    (extractSpeakerAndText s).1 = "" ∨
    pyStrip (extractSpeakerAndText s).2 = (extractSpeakerAndText s).2 := by
  unfold extractSpeakerAndText
  split
  · left; rfl
  · split
    · left; rfl
    · split
      · left; rfl
      · right
        dsimp only
        rw [pyStrip_idem]

theorem extract_snd_stripped (s : String)
    (h : (extractSpeakerAndText s).1 ≠ "") :
    pyStrip (extractSpeakerAndText s).2 = (extractSpeakerAndText s).2 := by
  cases extract_shape s with
  | inl h1 => exact absurd h1 h
  | inr h2 => exact h2

theorem str_space_append_ne (a b : String) : a ++ " " ++ b ≠ "" := by
  obtain ⟨la⟩ := a
  obtain ⟨lb⟩ := b
  intro h
  have h3 : (la ++ [' ']) ++ lb = [] := congrArg String.data h
  simp at h3

/-- Every utterance the block parser emits has a non-empty speaker and a
non-empty text. -/
theorem parseBlock_wf (b : String) (u : Utterance)
    (h : parseBlock b = some u) : u.speaker ≠ "" ∧ u.text ≠ "" := by
  simp only [parseBlock] at h
  split at h
  · exact absurd h (by simp)
  · split at h
    · exact absurd h (by simp)
    · split at h
      · exact absurd h (by simp)
      · split at h
        · rename_i hguard
          obtain ⟨h1, h2⟩ := hguard
          have hu := Option.some.inj h
          subst hu
          refine ⟨h1, ?_⟩
          rw [extract_snd_stripped _ h1]
          exact h2
        · exact absurd h (by simp)

/-- A block that yields an utterance is non-empty after stripping. -/
theorem parseBlock_strip_ne (b : String) (u : Utterance)
    (h : parseBlock b = some u) : ¬ pyStrip b = "" := by
  simp only [parseBlock] at h
  split at h
  · exact absurd h (by simp)
  · rename_i hg
    intro hb
    exact hg (Or.inl hb)

/-- The conversations accumulator of the parse loop: each block's
contribution is independent, so the loop is an order-preserving
filterMap over the blocks. -/
theorem parseLoop_fst (bs : List String) :
    ∀ (convs : List Utterance) (spks : List String),
      (parseLoop bs convs spks).1 = convs ++ bs.filterMap parseBlock := by
  induction bs with
  | nil => intro convs spks; simp [parseLoop]
  | cons b bs ih =>
    intro convs spks
    cases hb : parseBlock b with
    | none => simp [parseLoop, hb, ih]
    | some u => simp [parseLoop, hb, ih]

/-- The speakers accumulator of the parse loop is the fold of set
insertion over the speakers of the produced utterances. -/
theorem parseLoop_snd (bs : List String) :
    ∀ (convs : List Utterance) (spks : List String),
      (parseLoop bs convs spks).2 =
        (bs.filterMap parseBlock).foldl
          (fun acc u => insertSpeaker acc u.speaker) spks := by
  induction bs with
  | nil => intro convs spks; simp [parseLoop]
  | cons b bs ih =>
    intro convs spks
    cases hb : parseBlock b with
    | none => simp [parseLoop, hb, ih]
    | some u => simp [parseLoop, hb, ih]

theorem insertSpeaker_mem (l : List String) (s x : String) :
    x ∈ insertSpeaker l s ↔ x ∈ l ∨ x = s := by
  unfold insertSpeaker
  split
  · constructor
    · exact fun h => Or.inl h
    · rintro (h | rfl) <;> assumption
  · simp

theorem insertSpeaker_nodup (l : List String) (s : String) (h : l.Nodup) :
    (insertSpeaker l s).Nodup := by
  unfold insertSpeaker
  split
  · exact h
  · simp_all [List.nodup_append]

theorem insertFold_mem (us : List Utterance) :
    ∀ (spks : List String) (x : String),
      x ∈ us.foldl (fun acc u => insertSpeaker acc u.speaker) spks ↔
        x ∈ spks ∨ x ∈ us.map Utterance.speaker := by
  induction us with
  | nil => simp
  | cons u us ih =>
    intro spks x
    simp only [List.foldl_cons, ih, insertSpeaker_mem, List.map_cons,
      List.mem_cons]
    tauto

theorem insertFold_nodup (us : List Utterance) :
    ∀ (spks : List String), spks.Nodup →
      (us.foldl (fun acc u => insertSpeaker acc u.speaker) spks).Nodup := by
  induction us with
  | nil => simp
  | cons u us ih =>
    intro spks h
    exact ih _ (insertSpeaker_nodup _ _ h)

theorem parseTimestamp_short (line : String)
    (h : (pySplit " --> " line).length < 2) :
    parseTimestamp line = ("", "") := by
  unfold parseTimestamp
  cases hsp : pySplit " --> " line with
  | nil => rfl
  | cons a t =>
    cases t with
    | nil => rfl
    | cons b r =>
      rw [hsp] at h
      simp at h
      omega

/-- Number of blocks of the document that are non-empty after stripping. -/
def nonEmptyBlockCount (content : String) : Nat :=
  ((pySplit "\n\n" content).filter (fun b => !(pyStrip b == ""))).length

theorem filterMap_parseBlock_le (bs : List String) :
    (bs.filterMap parseBlock).length ≤
      (bs.filter (fun b => !(pyStrip b == ""))).length := by
  induction bs with
  | nil => simp
  | cons b bs ih =>
    cases hb : parseBlock b with
    | none =>
      simp only [List.filterMap_cons, hb, List.filter_cons]
      split
      · simpa using Nat.le_succ_of_le ih
      · exact ih
    | some u =>
      have hne : (!(pyStrip b == "")) = true := by
        have := parseBlock_strip_ne b u hb
        simpa using this
      simp only [List.filterMap_cons, hb, List.filter_cons, hne, if_pos]
      simpa using Nat.succ_le_succ ih

/-- Claim C1: a failed read is surfaced as the failure value `None`,
while any readable document, even one with zero utterances, yields a
distinct successful (`some`) dictionary. -/
theorem claim1_read_failure :
    parse_vtt_file "meeting.vtt" none = none ∧
    (∀ fp content, (parse_vtt_file fp (some content)).isSome = true) ∧
    (parse_vtt_content "meeting.vtt" "").conversations = some [] ∧
    (parse_vtt_file "meeting.vtt" (some "")).isSome = true :=
  ⟨rfl, fun _ _ => rfl, rfl, rfl⟩

/-- Claim C2, counterexample: a block whose timestamp line contains the
arrow without surrounding spaces does not split into two parts, yet the
block is not skipped: an utterance with empty start and end times is
emitted. -/
theorem claim2_counterexample :
    (parse_vtt_content "f.vtt"
      "1\n00:00:05.640-->00:00:17.960\nadam: Hello").conversations =
      some [{ start_time := "", end_time := "", speaker := "adam",
              text := "Hello" }] := by
  rfl

/-- Claim C2 as amended. -/
theorem claim2_amended (block : String) :
    (strContains (tsLineOf block) "-->" = false → parseBlock block = none) ∧
    (∀ u, parseBlock block = some u →
      (pySplit " --> " (tsLineOf block)).length < 2 →
      u.start_time = "" ∧ u.end_time = "") := by
  constructor
  · intro hc
    unfold tsLineOf at hc
    rw [List.getD_eq_getElem?_getD] at hc
    simp only [parseBlock]
    split
    · rfl
    · split
      · rfl
      · split
        · rfl
        · rename_i h
          simp [hc] at h
  · intro u hu hlen
    unfold tsLineOf at hlen
    simp only [parseBlock] at hu
    split at hu
    · exact absurd hu (by simp)
    · split at hu
      · exact absurd hu (by simp)
      · split at hu
        · exact absurd hu (by simp)
        · split at hu
          · have := Option.some.inj hu
            subst this
            dsimp only
            rw [parseTimestamp_short _ hlen]
            exact ⟨rfl, rfl⟩
          · exact absurd hu (by simp)

theorem claim2_amended_witness :
    parseBlock "a\nb\nc" = none ∧
    (({ start_time := "", end_time := "", speaker := "adam",
        text := "Hello" } : Utterance).start_time = "" ∧
     ({ start_time := "", end_time := "", speaker := "adam",
        text := "Hello" } : Utterance).end_time = "") :=
  ⟨(claim2_amended "a\nb\nc").1 (by rfl),
   (claim2_amended "1\n00:00:05.640-->00:00:17.960\nadam: Hello").2
     { start_time := "", end_time := "", speaker := "adam", text := "Hello" }
     (by rfl) (by decide)⟩

/-- Claim C3: the speakers of a parse result are exactly the distinct
speakers of its utterances, and the utterances are the blocks'
contributions in document order. -/
theorem claim3_speakers_and_order (file_path content : String) :
    ∃ convs spks,
      (parse_vtt_content file_path content).conversations = some convs ∧
      (parse_vtt_content file_path content).speakers = some spks ∧
      convs = (pySplit "\n\n" content).filterMap parseBlock ∧
      spks.Nodup ∧
      (∀ s, s ∈ spks ↔ s ∈ convs.map Utterance.speaker) := by
  refine ⟨(parseLoop (pySplit "\n\n" content) [] []).1,
          (parseLoop (pySplit "\n\n" content) [] []).2, rfl, rfl, ?_, ?_, ?_⟩
  · rw [parseLoop_fst]; simp
  · rw [parseLoop_snd]; exact insertFold_nodup _ _ List.nodup_nil
  · intro s
    rw [parseLoop_snd, insertFold_mem, parseLoop_fst]
    simp

/-- Claim C7: each block contributes at most one utterance, so the
utterance count is bounded by the non-empty block count. -/
theorem claim7_block_bound (file_path content : String) :
    ((parse_vtt_content file_path content).conversations.getD []).length ≤
      nonEmptyBlockCount content := by
  have h : (parse_vtt_content file_path content).conversations.getD [] =
      (pySplit "\n\n" content).filterMap parseBlock := by
    simp [parse_vtt_content, parseLoop_fst]
  rw [h]
  exact filterMap_parseBlock_le _

/-- Claim C9: parse reads and writes no instance state, so its result
and the derived stats depend only on the input text, and the instance
state is untouched. -/
theorem claim9_referential_transparency (s1 s2 : ParserState)
    (file_path : String) (readResult : Option String) :
    (parse_vtt_file_method s1 file_path readResult).1 =
      (parse_vtt_file_method s2 file_path readResult).1 ∧
    (parse_vtt_file_method s1 file_path readResult).2 = s1 ∧
    get_meeting_stats (parse_vtt_file_method s1 file_path readResult).1 =
      get_meeting_stats (parse_vtt_file_method s2 file_path readResult).1 ∧
    get_conversation_text (parse_vtt_file_method s1 file_path readResult).1 =
      get_conversation_text (parse_vtt_file_method s2 file_path readResult).1 :=
  ⟨rfl, rfl, rfl, rfl⟩

/-- Claim C10: the `None` sentinel and a dictionary lacking the
conversations key are tolerated by both downstream operations. -/
theorem claim10_sentinel_tolerated :
    get_conversation_text none = "" ∧ get_meeting_stats none = none ∧
    (∀ d : ParsedData, d.conversations = none →
      get_conversation_text (some d) = "" ∧
      get_meeting_stats (some d) = none) := by
  refine ⟨rfl, rfl, ?_⟩
  intro d hd
  constructor
  · simp [get_conversation_text, hd]
  · simp only [get_meeting_stats, hd]
    split
    · rfl
    · rfl

/-- A dictionary that has a speakers key but no conversations key. -/
def noConversationsDict : ParsedData :=
  { conversations := none, speakers := some ["x"], total_entries := none,
    file_path := none }

theorem claim10_witness :
    get_conversation_text (some noConversationsDict) = "" ∧
    get_meeting_stats (some noConversationsDict) = none :=
  claim10_sentinel_tolerated.2.2 noConversationsDict rfl

/-- With a non-empty running speaker and text and well-formed remaining
utterances, the source loop emits exactly the spec's merged runs after
the already emitted blocks. -/
theorem narrativeLoop_spec (rest : List Utterance) :
    ∀ (text_blocks : List String) (cs ct : String), cs ≠ "" → ct ≠ "" →
      (∀ u ∈ rest, u.speaker ≠ "" ∧ u.text ≠ "") →
      narrativeLoop rest text_blocks cs ct =
        text_blocks ++ specMergeGo cs ct rest := by
  induction rest with
  | nil =>
    intro text_blocks cs ct hcs hct _
    simp [narrativeLoop, specMergeGo, hcs, hct]
  | cons u rest ih =>
    intro text_blocks cs ct hcs hct hwf
    have hu := hwf u (by simp)
    by_cases hsp : u.speaker = cs
    · rw [narrativeLoop, if_pos hsp, specMergeGo, if_pos hsp]
      exact ih text_blocks cs (ct ++ " " ++ u.text) hcs
        (str_space_append_ne ct u.text)
        (fun v hv => hwf v (by simp [hv]))
    · rw [narrativeLoop, if_neg hsp, specMergeGo, if_neg hsp,
        if_pos ⟨hcs, hct⟩]
      rw [ih (text_blocks ++ [cs ++ ": " ++ ct]) u.speaker u.text hu.1 hu.2
        (fun v hv => hwf v (by simp [hv]))]
      simp

/-- Utterances of a parse result are well-formed: non-empty speaker and
non-empty (stripped) text. -/
theorem parse_utterances_wf (file_path content : String) (u : Utterance)
    (hu : u ∈ (parse_vtt_content file_path content).conversations.getD []) :
    u.speaker ≠ "" ∧ u.text ≠ "" := by
  have h : (parse_vtt_content file_path content).conversations.getD [] =
      (pySplit "\n\n" content).filterMap parseBlock := by
    simp [parse_vtt_content, parseLoop_fst]
  rw [h] at hu
  obtain ⟨b, _, hb⟩ := List.mem_filterMap.mp hu
  exact parseBlock_wf b u hb

/-- Claim C4: on every parse result the narrative reconstruction equals
the spec-level maximal-run merge; the empty transcript yields the empty
string, and the three-utterance example merges as specified. -/
theorem claim4_narrative (file_path content : String) (convs : List Utterance)
    (hc : (parse_vtt_content file_path content).conversations = some convs) :
    get_conversation_text (some (parse_vtt_content file_path content)) =
      reconstruct_narrative_spec convs ∧
    reconstruct_narrative_spec [] = "" ∧
    reconstruct_narrative_spec
      [{ start_time := "t1", end_time := "t2", speaker := "A", text := "hi" },
       { start_time := "t3", end_time := "t4", speaker := "A", text := "there" },
       { start_time := "t5", end_time := "t6", speaker := "B", text := "yo" }] =
      "A: hi there\n\nB: yo" := by
  refine ⟨?_, rfl, by rfl⟩
  have hwf : ∀ u ∈ convs, u.speaker ≠ "" ∧ u.text ≠ "" := by
    intro u hu
    exact parse_utterances_wf file_path content u (by rw [hc]; simpa using hu)
  have htr : (parse_vtt_content file_path content).isTruthy = true := by
    simp [ParsedData.isTruthy, parse_vtt_content]
  rw [get_conversation_text]
  rw [if_neg (by simp [htr, hc])]
  rw [hc]
  cases convs with
  | nil => rfl
  | cons u rest =>
    have hu := hwf u (by simp)
    rw [reconstruct_narrative_spec, specMergeRuns]
    have : narrativeLoop (u :: rest) [] "" "" =
        [] ++ specMergeGo u.speaker u.text rest := by
      rw [narrativeLoop, if_neg (by simpa using hu.1)]
      rw [if_neg (by simp)]
      exact narrativeLoop_spec rest [] u.speaker u.text hu.1 hu.2
        (fun v hv => hwf v (by simp [hv]))
    rw [Option.getD_some, this]
    rfl

theorem claim4_witness :
    get_conversation_text (some (parse_vtt_content "f.vtt"
      "1\n00:00:01.000 --> 00:00:02.000\nA: hi\n\n2\n00:00:02.000 --> 00:00:03.000\nA: there\n\n3\n00:00:03.000 --> 00:00:04.000\nB: yo")) =
      "A: hi there\n\nB: yo" := by
  have h := (claim4_narrative "f.vtt"
    "1\n00:00:01.000 --> 00:00:02.000\nA: hi\n\n2\n00:00:02.000 --> 00:00:03.000\nA: there\n\n3\n00:00:03.000 --> 00:00:04.000\nB: yo"
    [{ start_time := "00:00:01.000", end_time := "00:00:02.000", speaker := "A", text := "hi" },
     { start_time := "00:00:02.000", end_time := "00:00:03.000", speaker := "A", text := "there" },
     { start_time := "00:00:03.000", end_time := "00:00:04.000", speaker := "B", text := "yo" }]
    (by rfl)).1
  rw [h]
  rfl

theorem alookup_append (l1 l2 : List (String × Nat)) (k : String) :
    alookup k (l1 ++ l2) =
      match alookup k l1 with
      | some v => some v
      | none => alookup k l2 := by
  induction l1 with
  | nil => simp [alookup]
  | cons kv rest ih =>
    by_cases h : kv.1 = k
    · simp [alookup, h]
    · simp [alookup, h, ih]

theorem alookup_map_update (stats : List (String × Nat)) (s : String)
    (wc : Nat) (k : String) :
    alookup k (stats.map (fun kv => if kv.1 = s then (kv.1, kv.2 + wc) else kv)) =
      if k = s then (alookup k stats).map (fun n => n + wc)
      else alookup k stats := by
  induction stats with
  | nil => simp [alookup]
  | cons kv rest ih =>
    by_cases hks : k = s
    · subst hks
      by_cases hkv : kv.1 = k
      · simp [alookup, hkv]
      · simp [alookup, hkv, ih]
    · by_cases hkv : kv.1 = s
      · rw [List.map_cons, if_pos hkv]
        have hne : ¬ kv.1 = k := by rw [hkv]; exact fun h => hks h.symm
        simp [alookup, hne, ih, hks]
      · by_cases hkk : kv.1 = k
        · simp [alookup, hkv, hkk, hks]
        · simp [alookup, hkv, hkk, ih, hks]

theorem alookup_addWordCount (stats : List (String × Nat)) (s k : String)
    (wc : Nat) :
    alookup k (addWordCount stats s wc) =
      if k = s then some ((alookup k stats).getD 0 + wc)
      else alookup k stats := by
  unfold addWordCount
  by_cases hs : (alookup s stats).isSome
  · rw [if_pos hs, alookup_map_update]
    by_cases hks : k = s
    · subst hks
      obtain ⟨n, hn⟩ := Option.isSome_iff_exists.mp hs
      simp [hn]
    · simp [hks]
  · rw [if_neg hs, alookup_append]
    by_cases hks : k = s
    · subst hks
      have hnone : alookup k stats = none := Option.not_isSome_iff_eq_none.mp hs
      simp [hnone, alookup]
    · by_cases hlk : (alookup k stats).isSome
      · obtain ⟨n, hn⟩ := Option.isSome_iff_exists.mp hlk
        simp [hn, hks]
      · have hnone : alookup k stats = none := Option.not_isSome_iff_eq_none.mp hlk
        have : ¬ s = k := fun h => hks h.symm
        simp [hnone, alookup, this, hks]

theorem wsum_nil (k : String) : wsum k [] = 0 := rfl

theorem wsum_cons (k : String) (u : Utterance) (rest : List Utterance) :
    wsum k (u :: rest) =
      (if u.speaker = k then wordCount u.text else 0) + wsum k rest := by
  unfold wsum
  by_cases h : u.speaker = k
  · simp [List.filter_cons, h]
  · simp [List.filter_cons, h]

theorem alookup_statsLoop (convs : List Utterance) :
    ∀ (init : List (String × Nat)) (k : String), k ≠ "" →
      alookup k (statsLoop convs init) =
        if (alookup k init).isSome ∨ k ∈ convs.map Utterance.speaker
        then some ((alookup k init).getD 0 + wsum k convs)
        else none := by
  induction convs with
  | nil =>
    intro init k _
    by_cases h : (alookup k init).isSome
    · obtain ⟨n, hn⟩ := Option.isSome_iff_exists.mp h
      simp [statsLoop, hn, wsum_nil]
    · have hnone : alookup k init = none := Option.not_isSome_iff_eq_none.mp h
      simp [statsLoop, hnone]
  | cons u rest ih =>
    intro init k hk
    by_cases hu : u.speaker = ""
    · have h1 : u.speaker ≠ k := by
        rw [hu]
        exact fun h => hk h.symm
      have h2 : (k ∈ (u :: rest).map Utterance.speaker) =
          (k ∈ rest.map Utterance.speaker) := by
        apply propext
        simp only [List.map_cons, List.mem_cons]
        constructor
        · rintro (h | h)
          · rw [hu] at h
            exact absurd h hk
          · exact h
        · exact Or.inr
      rw [statsLoop, if_neg (by simpa using hu), ih init k hk, wsum_cons,
        if_neg h1]
      simp only [h2, Nat.zero_add]
    · rw [statsLoop, if_pos (by simpa using hu), ih _ k hk,
        alookup_addWordCount]
      by_cases hks : k = u.speaker
      · rw [if_pos hks]
        rw [if_pos (show (some ((alookup k init).getD 0 + wordCount u.text)).isSome =
            true ∨ k ∈ rest.map Utterance.speaker from Or.inl (by simp))]
        rw [if_pos (show (alookup k init).isSome = true ∨
            k ∈ (u :: rest).map Utterance.speaker from Or.inr (by simp [hks]))]
        rw [wsum_cons, if_pos hks.symm]
        simp only [Option.getD_some, Option.some.injEq]
        omega
      · rw [if_neg hks]
        have h2 : (k ∈ (u :: rest).map Utterance.speaker) =
            (k ∈ rest.map Utterance.speaker) := by
          apply propext
          simp only [List.map_cons, List.mem_cons]
          constructor
          · rintro (h | h)
            · exact absurd h hks
            · exact h
          · exact Or.inr
        rw [wsum_cons, if_neg (show ¬ u.speaker = k from fun h => hks h.symm)]
        simp only [h2, Nat.zero_add]

theorem alookup_statsLoop_empty_key (convs : List Utterance) :
    ∀ (init : List (String × Nat)), alookup "" (statsLoop convs init) =
      alookup "" init := by
  induction convs with
  | nil => intro init; rfl
  | cons u rest ih =>
    intro init
    by_cases hu : u.speaker = ""
    · rw [statsLoop, if_neg (by simpa using hu)]
      exact ih init
    · rw [statsLoop, if_pos (by simpa using hu)]
      rw [ih, alookup_addWordCount]
      exact if_neg (fun h => hu h.symm)

theorem parse_speakers_spec (file_path content : String)
    (convs : List Utterance) (spks : List String)
    (hc : (parse_vtt_content file_path content).conversations = some convs)
    (hs : (parse_vtt_content file_path content).speakers = some spks) :
    spks.Nodup ∧ (∀ s, s ∈ spks ↔ s ∈ convs.map Utterance.speaker) := by
  have hc2 : convs = (parseLoop (pySplit "\n\n" content) [] []).1 :=
    (Option.some.inj hc).symm
  have hs2 : spks = (parseLoop (pySplit "\n\n" content) [] []).2 :=
    (Option.some.inj hs).symm
  subst hc2
  subst hs2
  constructor
  · rw [parseLoop_snd]
    exact insertFold_nodup _ _ List.nodup_nil
  · intro s
    rw [parseLoop_snd, insertFold_mem, parseLoop_fst]
    simp

theorem speakers_length_eq_dedup (file_path content : String)
    (convs : List Utterance) (spks : List String)
    (hc : (parse_vtt_content file_path content).conversations = some convs)
    (hs : (parse_vtt_content file_path content).speakers = some spks) :
    spks.length = (convs.map Utterance.speaker).dedup.length := by
  obtain ⟨hnd, hmem⟩ := parse_speakers_spec file_path content convs spks hc hs
  have h1 : spks.toFinset = (convs.map Utterance.speaker).toFinset := by
    ext s
    simp only [List.mem_toFinset]
    exact hmem s
  calc spks.length = spks.toFinset.card :=
        (List.toFinset_card_of_nodup hnd).symm
    _ = (convs.map Utterance.speaker).toFinset.card := by rw [h1]
    _ = (convs.map Utterance.speaker).dedup.length := List.card_toFinset _

theorem get_meeting_stats_parse_nil (file_path content : String)
    (hc : (parse_vtt_content file_path content).conversations = some []) :
    get_meeting_stats (some (parse_vtt_content file_path content)) = none := by
  have htr : (parse_vtt_content file_path content).isTruthy = true := by
    simp [ParsedData.isTruthy, hc]
  simp only [get_meeting_stats]
  rw [if_neg (by simp [htr])]
  rw [hc]
  rfl

theorem get_meeting_stats_parse (file_path content : String)
    (first : Utterance) (rest : List Utterance)
    (hc : (parse_vtt_content file_path content).conversations =
      some (first :: rest)) :
    get_meeting_stats (some (parse_vtt_content file_path content)) =
      some { duration := first.start_time ++ " to " ++
               ((first :: rest).getLast (List.cons_ne_nil first rest)).end_time
             total_speakers :=
               ((parse_vtt_content file_path content).speakers.getD []).length
             total_entries := (first :: rest).length
             speaker_word_counts := statsLoop (first :: rest) [] } := by
  have htr : (parse_vtt_content file_path content).isTruthy = true := by
    simp [ParsedData.isTruthy, hc]
  simp only [get_meeting_stats]
  rw [if_neg (by simp [htr])]
  rw [hc]
  rfl

/-- Claim C5: with at least one utterance the stats dictionary carries
exactly the duration, speaker count, entry count and word counts, with
duration built from the first start and last end time, the entry count
the number of utterances and the speaker count the number of distinct
speakers; with zero utterances the result is the empty dict. -/
theorem claim5_stats (file_path content : String) :
    ((parse_vtt_content file_path content).conversations = some [] →
      get_meeting_stats (some (parse_vtt_content file_path content)) = none) ∧
    (∀ first rest,
      (parse_vtt_content file_path content).conversations =
        some (first :: rest) →
      ∃ st, get_meeting_stats (some (parse_vtt_content file_path content)) =
          some st ∧
        st.duration = first.start_time ++ " to " ++
          ((first :: rest).getLast (List.cons_ne_nil first rest)).end_time ∧
        st.total_entries = (first :: rest).length ∧
        st.total_speakers =
          ((first :: rest).map Utterance.speaker).dedup.length) := by
  constructor
  · intro hc
    exact get_meeting_stats_parse_nil file_path content hc
  · intro first rest hc
    refine ⟨_, get_meeting_stats_parse file_path content first rest hc, rfl,
      rfl, ?_⟩
    exact speakers_length_eq_dedup file_path content (first :: rest)
      ((parse_vtt_content file_path content).speakers.getD []) hc
      (by simp [parse_vtt_content])

theorem claim5_witness :
    (get_meeting_stats (some (parse_vtt_content "f.vtt"
        "1\n00:00:05.640 --> 00:00:17.960\nadam: Hello there"))).map
      MeetingStats.duration = some "00:00:05.640 to 00:00:17.960" ∧
    (get_meeting_stats (some (parse_vtt_content "f.vtt"
        "1\n00:00:05.640 --> 00:00:17.960\nadam: Hello there"))).map
      MeetingStats.total_entries = some 1 ∧
    (get_meeting_stats (some (parse_vtt_content "f.vtt"
        "1\n00:00:05.640 --> 00:00:17.960\nadam: Hello there"))).map
      MeetingStats.total_speakers = some 1 := by
  obtain ⟨st, h1, h2, h3, h4⟩ := (claim5_stats "f.vtt"
    "1\n00:00:05.640 --> 00:00:17.960\nadam: Hello there").2
    { start_time := "00:00:05.640", end_time := "00:00:17.960",
      speaker := "adam", text := "Hello there" } [] (by rfl)
  rw [h1]
  refine ⟨?_, ?_, ?_⟩
  · rw [show Option.map MeetingStats.duration (some st) = some st.duration from
      rfl, h2]
    rfl
  · rw [show Option.map MeetingStats.total_entries (some st) =
      some st.total_entries from rfl, h3]
    rfl
  · rw [show Option.map MeetingStats.total_speakers (some st) =
      some st.total_speakers from rfl, h4]
    rfl

/-- Claim C6: the per-speaker word counts of the stats are, for every
speaker of the transcript, the sum of the whitespace-token counts of
that speaker's utterance texts, and the key set of the mapping is
exactly the speakers set. -/
theorem claim6_word_counts (file_path content : String) (st : MeetingStats)
    (hst : get_meeting_stats (some (parse_vtt_content file_path content)) =
      some st) :
    (∀ spk : String,
      ((alookup spk st.speaker_word_counts).isSome = true ↔
        spk ∈ (parse_vtt_content file_path content).speakers.getD []) ∧
      (spk ∈ ((parse_vtt_content file_path content).conversations.getD []).map
          Utterance.speaker →
        alookup spk st.speaker_word_counts =
          some (wsum spk
            ((parse_vtt_content file_path content).conversations.getD [])))) ∧
    wordCount "one two three" = 3 := by
  have hc : (parse_vtt_content file_path content).conversations =
      some (parseLoop (pySplit "\n\n" content) [] []).1 := rfl
  have hs : (parse_vtt_content file_path content).speakers =
      some (parseLoop (pySplit "\n\n" content) [] []).2 := rfl
  have hgetd : (parse_vtt_content file_path content).conversations.getD [] =
      (parseLoop (pySplit "\n\n" content) [] []).1 := by rw [hc]; rfl
  have hsgetd : (parse_vtt_content file_path content).speakers.getD [] =
      (parseLoop (pySplit "\n\n" content) [] []).2 := by rw [hs]; rfl
  have hwf : ∀ u ∈ (parseLoop (pySplit "\n\n" content) [] []).1,
      u.speaker ≠ "" := by
    intro u hu
    exact (parse_utterances_wf file_path content u (by rw [hgetd]; exact hu)).1
  obtain ⟨hnd, hmem⟩ := parse_speakers_spec file_path content
    (parseLoop (pySplit "\n\n" content) [] []).1
    (parseLoop (pySplit "\n\n" content) [] []).2 hc hs
  have hswc : st.speaker_word_counts =
      statsLoop (parseLoop (pySplit "\n\n" content) [] []).1 [] := by
    cases hL : (parseLoop (pySplit "\n\n" content) [] []).1 with
    | nil =>
      have := get_meeting_stats_parse_nil file_path content (by rw [hc, hL])
      rw [this] at hst
      exact absurd hst (by simp)
    | cons first rest =>
      have h2 := get_meeting_stats_parse file_path content first rest
        (by rw [hc, hL])
      rw [h2] at hst
      have h3 := Option.some.inj hst
      rw [← h3]
  refine ⟨?_, rfl⟩
  intro spk
  rw [hswc, hgetd, hsgetd]
  by_cases hspk : spk = ""
  · subst hspk
    constructor
    · rw [alookup_statsLoop_empty_key]
      simp only [alookup, Option.isSome_none]
      constructor
      · intro h
        exact absurd h (by simp)
      · intro h
        rw [hmem] at h
        obtain ⟨u, hu, hueq⟩ := List.mem_map.mp h
        exact absurd hueq (hwf u hu)
    · intro h
      obtain ⟨u, hu, hueq⟩ := List.mem_map.mp h
      exact absurd hueq (hwf u hu)
  · rw [alookup_statsLoop _ [] spk hspk]
    constructor
    · constructor
      · intro h
        rw [hmem]
        by_cases hm : spk ∈ (List.map Utterance.speaker
            (parseLoop (pySplit "\n\n" content) [] []).1)
        · exact hm
        · rw [if_neg (by simp [alookup, hm])] at h
          exact absurd h (by simp)
      · intro h
        rw [hmem] at h
        rw [if_pos (Or.inr h)]
        rfl
    · intro h
      rw [if_pos (Or.inr h)]
      simp [alookup]

/-- Concrete three-cue document for the word-count witness. -/
def claim6Doc : String :=
  "1\n00:00:01.000 --> 00:00:02.000\nadam: one two three\n\n2\n00:00:02.000 --> 00:00:03.000\nbeth: hi\n\n3\n00:00:03.000 --> 00:00:04.000\nadam: four five"

/-- Stats of `claim6Doc` as the code computes them. -/
def claim6Stats : MeetingStats :=
  { duration := "00:00:01.000 to 00:00:04.000", total_speakers := 2,
    total_entries := 3, speaker_word_counts := [("adam", 5), ("beth", 1)] }

set_option maxRecDepth 8192 in
theorem claim6_witness :
    alookup "adam" claim6Stats.speaker_word_counts =
      some (wsum "adam"
        ((parse_vtt_content "f.vtt" claim6Doc).conversations.getD [])) ∧
    wordCount "one two three" = 3 :=
  ⟨((claim6_word_counts "f.vtt" claim6Doc claim6Stats (by rfl)).1 "adam").2
     (by decide),
   (claim6_word_counts "f.vtt" claim6Doc claim6Stats (by rfl)).2⟩

theorem exceptBind_ok {α β : Type} (a : α) (f : α → Except String β) :
    (Except.ok a : Except String α) >>= f = f a := rfl

theorem narrativeLoopE_ok (l : List Utterance) :
    ∀ (b : List String) (cs ct : String),
      narrativeLoopE l b cs ct = Except.ok (narrativeLoop l b cs ct) := by
  induction l with
  | nil => intro b cs ct; rfl
  | cons u rest ih =>
    intro b cs ct
    by_cases hsp : u.speaker = cs
    · simp [narrativeLoopE, Utterance.getKey, narrativeLoop, hsp, ih, exceptBind_ok]
    · simp [narrativeLoopE, Utterance.getKey, narrativeLoop, hsp, ih, exceptBind_ok]

theorem statsLoopE_ok (l : List Utterance) :
    ∀ (s : List (String × Nat)),
      statsLoopE l s = Except.ok (statsLoop l s) := by
  induction l with
  | nil => intro s; rfl
  | cons u rest ih =>
    intro s
    by_cases hu : u.speaker = ""
    · simp [statsLoopE, Utterance.getKey, statsLoop, hu, ih, exceptBind_ok]
    · simp [statsLoopE, Utterance.getKey, statsLoop, hu, ih, exceptBind_ok]

/-- Claim C8: the explicitly fallible versions of both downstream
operations always succeed — every dictionary access and list indexing
they perform is guarded, so no exception can propagate. -/
theorem claim8_no_exceptions (pd : Option ParsedData) :
    get_conversation_text_e pd = Except.ok (get_conversation_text pd) ∧
    get_meeting_stats_e pd = Except.ok (get_meeting_stats pd) := by
  constructor
  · cases pd with
    | none => rfl
    | some d =>
      simp only [get_conversation_text_e, get_conversation_text]
      split
      · rfl
      · rw [narrativeLoopE_ok]
        rfl
  · cases pd with
    | none => rfl
    | some d =>
      simp only [get_meeting_stats_e, get_meeting_stats]
      split
      · rfl
      · split
        · rfl
        · rename_i first rest heq
          rw [show listGet0E (first :: rest) = Except.ok first from rfl]
          rw [show listGetLastE (first :: rest) =
            Except.ok ((first :: rest).getLast (List.cons_ne_nil first rest)) from by
              unfold listGetLastE
              rw [List.getLast?_eq_getLast_of_ne_nil (List.cons_ne_nil first rest)]]
          rw [statsLoopE_ok]
          rfl

theorem claim1_witness :
    (parse_vtt_file "meeting.vtt" (some "WEBVTT")).isSome = true :=
  claim1_read_failure.2.1 "meeting.vtt" "WEBVTT"

theorem claim3_witness :
    (parse_vtt_content "w.vtt"
      "1\n00:00:01.000 --> 00:00:02.000\nadam: hi").conversations =
      some ((pySplit "\n\n"
        "1\n00:00:01.000 --> 00:00:02.000\nadam: hi").filterMap parseBlock) := by
  obtain ⟨convs, spks, hc, hs, hord, hnd, hmem⟩ :=
    claim3_speakers_and_order "w.vtt" "1\n00:00:01.000 --> 00:00:02.000\nadam: hi"
  rw [hc, hord]

theorem claim7_witness :
    ((parse_vtt_content "w.vtt"
      "WEBVTT\n\n1\n00:00:01.000 --> 00:00:02.000\nadam: hi").conversations.getD
        []).length ≤
      nonEmptyBlockCount "WEBVTT\n\n1\n00:00:01.000 --> 00:00:02.000\nadam: hi" :=
  claim7_block_bound "w.vtt" "WEBVTT\n\n1\n00:00:01.000 --> 00:00:02.000\nadam: hi"

theorem claim8_witness :
    get_meeting_stats_e (some (parse_vtt_content "w.vtt"
      "1\n00:00:01.000 --> 00:00:02.000\nadam: hi")) =
      Except.ok (get_meeting_stats (some (parse_vtt_content "w.vtt"
        "1\n00:00:01.000 --> 00:00:02.000\nadam: hi"))) :=
  (claim8_no_exceptions (some (parse_vtt_content "w.vtt"
    "1\n00:00:01.000 --> 00:00:02.000\nadam: hi"))).2

theorem claim9_witness :
    (parse_vtt_file_method { speakers := ["stale"], conversations := [] }
      "a.vtt" (some "doc")).1 =
      (parse_vtt_file_method { speakers := [], conversations := [] }
        "a.vtt" (some "doc")).1 :=
  (claim9_referential_transparency
    { speakers := ["stale"], conversations := [] }
    { speakers := [], conversations := [] } "a.vtt" (some "doc")).1
